import Mathlib

/-!
Shallow embedding of `circuitbreaker.go` (package `circuitbreaker`).

Modelling choices:
* Wall-clock time is a `Nat` (nanoseconds, matching Go's `time.Duration`
  resolution).  The Go test `time.Since(cb.openedAt) >= cb.settings.Timeout`
  is `cb.openedAt + timeout ≤ now` for a monotone clock.
  The Go zero value `time.Time{}` is modelled as `0`.
* `Execute` runs its argument `fn` exactly once when the call is admitted;
  we pass the pair `fn` would return as an explicit input `fnResult`.
  A rejected call's result does not depend on `fnResult` at all, which is
  the embedding of "the wrapped operation is never invoked".
* The `OnStateChange` callback is modelled by letting every operation
  return, next to the new breaker, the list of `(from, to)` pairs the
  callback would be invoked with (in order).  `setState` emits a pair
  exactly when the state actually changes, as in the Go code.
* Go `int` counters only ever hold 0 or grow by 1 from 0 in this code,
  so `Nat` is faithful; configuration fields are `Nat` as the spec demands
  (`failureThreshold > 0` etc. appear as theorem hypotheses where needed).
* `Execute` takes two instants, `tAdmit` for phase 1 (`time.Since` check)
  and `tRecord` for phase 3 (`time.Now()` stored into `openedAt`).
-/

namespace CircuitBreaker

/-- Breaker mode, as in the Go `State` enumeration. -/
inductive State where
  | StateClosed
  | StateOpen
  | StateHalfOpen
deriving DecidableEq, Repr

/-- `State.String` from the Go code. -/
def State.toGoString : State → String
  | .StateClosed => "closed"
  | .StateOpen => "open"
  | .StateHalfOpen => "half-open"

/-- Configuration (`Settings` struct); `OnStateChange` is modelled by the
transition lists the operations return. -/
structure Settings where
  failureThreshold : Nat
  successThreshold : Nat
  timeout : Nat
  maxRequests : Nat
deriving DecidableEq, Repr

/-- `DefaultSettings` from the Go code (timeout = 30s in nanoseconds). -/
def DefaultSettings : Settings :=
  { failureThreshold := 5, successThreshold := 2,
    timeout := 30000000000, maxRequests := 1 }

/-- The mutable fields of the Go `circuitBreaker` struct (the mutex is the
sequential-atomicity of each phase; see the step relation below). -/
structure circuitBreaker where
  state : State
  failureCount : Nat
  successCount : Nat
  halfOpenRequests : Nat
  openedAt : Nat
  settings : Settings
deriving DecidableEq, Repr

/-- A `(from, to)` pair passed to the `OnStateChange` callback. -/
abbrev Transition := State × State

/-- `New`: Go zero values for every field not listed in the literal. -/
def New (settings : Settings) : circuitBreaker :=
  { state := .StateClosed, failureCount := 0, successCount := 0,
    halfOpenRequests := 0, openedAt := 0, settings := settings }

/-- `setState`: change the state, reporting the callback invocation;
a no-op (no callback) when the target equals the current state. -/
def setState (cb : circuitBreaker) (newState : State) :
    circuitBreaker × List Transition :=
  if cb.state = newState then (cb, [])
  else ({ cb with state := newState }, [(cb.state, newState)])

/-- Lines 117–121 of `Execute`: the lazy Open → Half-Open cooldown check. -/
def checkCooldown (cb : circuitBreaker) (now : Nat) :
    circuitBreaker × List Transition :=
  if cb.state = State.StateOpen ∧ cb.openedAt + cb.settings.timeout ≤ now then
    let s := setState cb State.StateHalfOpen
    ({ s.1 with halfOpenRequests := 0, successCount := 0 }, s.2)
  else (cb, [])

/-- Outcome of the `switch state` admission decision in `Execute`. -/
inductive Decision where
  | rejectOpen
  | rejectHalfOpen
  | allowed
deriving DecidableEq, Repr

/-- Lines 123–135 of `Execute`: the `switch state` admission decision
(the captured mode is the state of the returned breaker, unchanged here). -/
def admission (cb : circuitBreaker) : circuitBreaker × Decision :=
  match cb.state with
  | .StateOpen => (cb, .rejectOpen)
  | .StateHalfOpen =>
      if cb.settings.maxRequests ≤ cb.halfOpenRequests then
        (cb, .rejectHalfOpen)
      else ({ cb with halfOpenRequests := cb.halfOpenRequests + 1 }, .allowed)
  | .StateClosed => (cb, .allowed)

/-- Phase 1 of `Execute` under the lock: cooldown check then admission. -/
def gatePhase (cb : circuitBreaker) (now : Nat) :
    circuitBreaker × Decision × List Transition :=
  let c := checkCooldown cb now
  let a := admission c.1
  (a.1, a.2, c.2)

/-- Lines 146–163 of `Execute` (phase 3, under the lock): record the
outcome against the mode captured at admission time. -/
def recordOutcome (cb : circuitBreaker) (captured : State)
    (errPresent : Bool) (now : Nat) : circuitBreaker × List Transition :=
  if errPresent then
    let cb1 := { cb with failureCount := cb.failureCount + 1, successCount := 0 }
    if captured = State.StateHalfOpen ∨
        cb1.settings.failureThreshold ≤ cb1.failureCount then
      let s := setState cb1 State.StateOpen
      ({ s.1 with openedAt := now }, s.2)
    else (cb1, [])
  else
    let cb1 := { cb with successCount := cb.successCount + 1, failureCount := 0 }
    if captured = State.StateHalfOpen then
      let cb2 := { cb1 with halfOpenRequests := 0 }
      if cb2.settings.successThreshold ≤ cb2.successCount then
        setState cb2 State.StateClosed
      else (cb2, [])
    else (cb1, [])

/-- What `Execute` returns to the caller: one of the two distinct rejection
errors (the wrapped operation was never invoked), or the pair returned by
the wrapped operation, passed through unchanged. -/
inductive ExecResult (ρ ε : Type) where
  | rejectedOpen
  | rejectedHalfOpen
  | completed (result : ρ) (err : Option ε)
deriving DecidableEq, Repr

/-- The Go error string attached to the returned value (`errors.New ...`);
`none` when no rejection error was added by the breaker itself. -/
def rejectionMessage {ρ ε : Type} : ExecResult ρ ε → Option String
  | .rejectedOpen => some "circuit breaker is open"
  | .rejectedHalfOpen => some "circuit breaker is half-open"
  | .completed _ _ => none

/-- `Execute`: phase 1 (gate, under the lock, at instant `tAdmit`), the
unlocked run of `fn` (its return pair is the input `fnResult`, with the
error an `Option ε` — Go `err != nil` is `Option.isSome`), phase 3
(recording, under the lock, at instant `tRecord`).  Returns the new
breaker, the caller-visible result and the callback invocations. -/
def Execute {ρ ε : Type} (cb : circuitBreaker) (tAdmit tRecord : Nat)
    (fnResult : ρ × Option ε) :
    circuitBreaker × ExecResult ρ ε × List Transition :=
  let g := gatePhase cb tAdmit
  match g.2.1 with
  | .rejectOpen => (g.1, .rejectedOpen, g.2.2)
  | .rejectHalfOpen => (g.1, .rejectedHalfOpen, g.2.2)
  | .allowed =>
      let r := recordOutcome g.1 g.1.state fnResult.2.isSome tRecord
      (r.1, .completed fnResult.1 fnResult.2, g.2.2 ++ r.2)

/-- The `State()` query (named apart from the `State` type). -/
def StateQuery (cb : circuitBreaker) : State := cb.state

/-- `Counts()`: `(failureCount, successCount)`. -/
def Counts (cb : circuitBreaker) : Nat × Nat :=
  (cb.failureCount, cb.successCount)

/-- `Reset`: `setState(StateClosed)` first (so the callback sees the old
state), then zero every counter and `openedAt`. -/
def Reset (cb : circuitBreaker) : circuitBreaker × List Transition :=
  let s := setState cb State.StateClosed
  ({ s.1 with failureCount := 0, successCount := 0,
              halfOpenRequests := 0, openedAt := 0 }, s.2)

/-- `errs.length` consecutive `Execute` calls, all at instant `t`, whose
wrapped operation returns the corresponding non-nil error of `errs`
(the result value is `()`); collects every callback invocation in order. -/
def runFailures {ε : Type} (t : Nat) :
    circuitBreaker → List ε → circuitBreaker × List Transition
  | cb, [] => (cb, [])
  | cb, e :: es =>
      let x := Execute cb t t ((), some e)
      let r := runFailures t x.1 es
      (r.1, x.2.2 ++ r.2)

/-- One atomic locked section of the public mutators, with the unlocked
inputs over-approximated: phase 1 of `Execute` at any instant, phase 3 of
`Execute` with any captured mode and outcome, or `Reset`.  (`State()` and
`Counts()` do not write.)  Every state a family of interleaved concurrent
calls can produce is reachable through these steps. -/
inductive Step : circuitBreaker → circuitBreaker → Prop where
  | gateStep (cb : circuitBreaker) (t : Nat) : Step cb (gatePhase cb t).1
  | recordStep (cb : circuitBreaker) (captured : State) (err : Bool)
      (t : Nat) : Step cb (recordOutcome cb captured err t).1
  | resetStep (cb : circuitBreaker) : Step cb (Reset cb).1

/-- Breaker states reachable from `New settings` by the public mutators. -/
def Reachable (settings : Settings) (cb : circuitBreaker) : Prop :=
  Relation.ReflTransGen Step (New settings) cb

/-! Concrete breakers used by the witnesses below. -/

/-- A small concrete configuration for witnesses. -/
def W1 : Settings :=
  { failureThreshold := 1, successThreshold := 2, timeout := 5, maxRequests := 1 }

/-- After one admitted failure under `W1` the breaker is Open (`openedAt = 0`). -/
def cbOpenW : circuitBreaker := (Execute (New W1) 0 0 ((), some 0)).1

/-- One successful probe after cooldown: Half-Open with `successCount = 1`. -/
def cbHalfW : circuitBreaker :=
  (Execute cbOpenW 5 5 ((), (none : Option Nat))).1

/-! ### C2: Open within cooldown rejects without invoking the operation -/

/-- C2: While the breaker is Open and the elapsed time since `openedAt` is
strictly below the cooldown, `Execute` leaves the breaker untouched, fires
no callback, and returns the distinct Open-rejection error; the result does
not depend on `fnResult`, i.e. the wrapped operation is never invoked. -/
theorem open_within_cooldown_rejects {ρ ε : Type} (cb : circuitBreaker)
    (tAdmit tRecord : Nat) (fnResult : ρ × Option ε)
    (hs : cb.state = State.StateOpen)
    (ht : tAdmit < cb.openedAt + cb.settings.timeout) :
    Execute cb tAdmit tRecord fnResult = (cb, ExecResult.rejectedOpen, []) ∧
    rejectionMessage (ExecResult.rejectedOpen : ExecResult ρ ε) =
      some "circuit breaker is open" := by
  refine ⟨?_, rfl⟩
  have hnot : ¬ (cb.openedAt + cb.settings.timeout ≤ tAdmit) := by omega
  simp [Execute, gatePhase, checkCooldown, admission, hs, hnot]

/-- Witness for C2 at a concrete Open breaker inside cooldown. -/
theorem open_within_cooldown_rejects_witness :
    Execute cbOpenW 3 3 (((), none) : Unit × Option Nat) =
      (cbOpenW, ExecResult.rejectedOpen, []) :=
  (open_within_cooldown_rejects cbOpenW 3 3 ((), none)
    (by decide) (by decide)).1

/-! ### C4: the lazy Open → Half-Open transition happens before admission -/

/-- C4: On the first `Execute` once `openedAt + timeout ≤ tAdmit`, the
cooldown check itself moves the breaker to Half-Open with
`halfOpenRequests = 0` and `successCount = 0` and fires the
`(Open, Half-Open)` callback; the same call is then admitted under the
Half-Open rules (so the wrapped operation runs and its pair is returned),
with that callback first in the call's list.  The check is lazy: the
`State()` query performs no transition, so the breaker still reports Open
just before this call even though the cooldown has elapsed. -/
theorem cooldown_elapsed_transitions_before_admission {ρ ε : Type}
    (cb : circuitBreaker) (tAdmit tRecord : Nat) (r : ρ) (e : Option ε)
    (hs : cb.state = State.StateOpen)
    (ht : cb.openedAt + cb.settings.timeout ≤ tAdmit)
    (hm : 0 < cb.settings.maxRequests) :
    (checkCooldown cb tAdmit).1.state = State.StateHalfOpen ∧
    (checkCooldown cb tAdmit).1.halfOpenRequests = 0 ∧
    (checkCooldown cb tAdmit).1.successCount = 0 ∧
    (checkCooldown cb tAdmit).2 = [(State.StateOpen, State.StateHalfOpen)] ∧
    (Execute cb tAdmit tRecord (r, e)).2.1 = ExecResult.completed r e ∧
    (Execute cb tAdmit tRecord (r, e)).2.2.head? =
      some (State.StateOpen, State.StateHalfOpen) ∧
    StateQuery cb = State.StateOpen := by
  have hm' : ¬ (cb.settings.maxRequests ≤ 0) := by omega
  refine ⟨?_, ?_, ?_, ?_, ?_, ?_, hs⟩ <;>
    simp [Execute, gatePhase, checkCooldown, admission, setState, hs, ht, hm']

/-- Witness for C4 at a concrete Open breaker past its cooldown. -/
theorem cooldown_elapsed_transitions_before_admission_witness :
    (Execute cbOpenW 5 5 (((), none) : Unit × Option Nat)).2.1 =
      ExecResult.completed () none ∧
    (Execute cbOpenW 5 5 (((), none) : Unit × Option Nat)).2.2.head? =
      some (State.StateOpen, State.StateHalfOpen) :=
  ⟨(cooldown_elapsed_transitions_before_admission cbOpenW 5 5 () none
      (by decide) (by decide) (by decide)).2.2.2.2.1,
   (cooldown_elapsed_transitions_before_admission cbOpenW 5 5 () none
      (by decide) (by decide) (by decide)).2.2.2.2.2.1⟩

/-! ### C5: any failure of an admitted Half-Open probe reopens at once -/

/-- C5: A call admitted with captured mode Half-Open whose wrapped
operation returns a non-nil error moves the breaker to Open, stamps
`openedAt` with the recording instant and fires exactly the
`(Half-Open, Open)` callback — for every `successCount` and every
`successThreshold`, i.e. regardless of accrued successes. -/
theorem halfopen_failure_reopens {ρ ε : Type} (cb : circuitBreaker)
    (tAdmit tRecord : Nat) (r : ρ) (e : ε)
    (hs : cb.state = State.StateHalfOpen)
    (hcap : cb.halfOpenRequests < cb.settings.maxRequests) :
    (Execute cb tAdmit tRecord (r, some e)).1.state = State.StateOpen ∧
    (Execute cb tAdmit tRecord (r, some e)).1.openedAt = tRecord ∧
    (Execute cb tAdmit tRecord (r, some e)).2.1 =
      ExecResult.completed r (some e) ∧
    (Execute cb tAdmit tRecord (r, some e)).2.2 =
      [(State.StateHalfOpen, State.StateOpen)] := by
  have hnot : ¬ (cb.settings.maxRequests ≤ cb.halfOpenRequests) := by omega
  refine ⟨?_, ?_, ?_, ?_⟩ <;>
    simp [Execute, gatePhase, checkCooldown, admission, recordOutcome,
          setState, hs, hnot]

/-- Witness for C5 at a concrete Half-Open breaker with a free probe slot. -/
theorem halfopen_failure_reopens_witness :
    (Execute cbHalfW 6 6 ((), some 7)).1.state = State.StateOpen ∧
    (Execute cbHalfW 6 6 ((), some 7)).1.openedAt = 6 ∧
    (Execute cbHalfW 6 6 ((), some 7)).2.2 =
      [(State.StateHalfOpen, State.StateOpen)] :=
  ⟨(halfopen_failure_reopens cbHalfW 6 6 () 7 (by decide) (by decide)).1,
   (halfopen_failure_reopens cbHalfW 6 6 () 7 (by decide) (by decide)).2.1,
   (halfopen_failure_reopens cbHalfW 6 6 () 7 (by decide) (by decide)).2.2.2⟩

/-! ### C6: Half-Open success bookkeeping and the closing condition -/

/-- C6: A call admitted with captured mode Half-Open whose wrapped
operation succeeds increments `successCount`, zeroes `failureCount`,
zeroes `halfOpenRequests` (freeing the probe slot at once), and the
breaker ends Closed exactly when the new streak reaches
`successThreshold`; below the threshold it stays Half-Open. -/
theorem halfopen_success_updates {ρ ε : Type} (cb : circuitBreaker)
    (tAdmit tRecord : Nat) (r : ρ)
    (hs : cb.state = State.StateHalfOpen)
    (hcap : cb.halfOpenRequests < cb.settings.maxRequests) :
    (Execute cb tAdmit tRecord (r, (none : Option ε))).1.successCount =
      cb.successCount + 1 ∧
    (Execute cb tAdmit tRecord (r, (none : Option ε))).1.failureCount = 0 ∧
    (Execute cb tAdmit tRecord (r, (none : Option ε))).1.halfOpenRequests = 0 ∧
    ((Execute cb tAdmit tRecord (r, (none : Option ε))).1.state =
        State.StateClosed ↔
      cb.settings.successThreshold ≤ cb.successCount + 1) ∧
    (cb.successCount + 1 < cb.settings.successThreshold →
      (Execute cb tAdmit tRecord (r, (none : Option ε))).1.state =
        State.StateHalfOpen) := by
  have hnot : ¬ (cb.settings.maxRequests ≤ cb.halfOpenRequests) := by omega
  by_cases hth : cb.settings.successThreshold ≤ cb.successCount + 1
  · refine ⟨?_, ?_, ?_, ?_, ?_⟩ <;>
      simp [Execute, gatePhase, checkCooldown, admission, recordOutcome,
            setState, hs, hnot, hth]
  · refine ⟨?_, ?_, ?_, ?_, ?_⟩ <;>
      simp [Execute, gatePhase, checkCooldown, admission, recordOutcome,
            setState, hs, hnot, hth]

/-- Witness for C6: the second consecutive probe success under `W1`
(`successThreshold = 2`) closes the breaker. -/
theorem halfopen_success_updates_witness :
    (Execute cbHalfW 6 6 (((), none) : Unit × Option Nat)).1.successCount = 2 ∧
    (Execute cbHalfW 6 6 (((), none) : Unit × Option Nat)).1.state =
      State.StateClosed :=
  ⟨(halfopen_success_updates cbHalfW 6 6 () (by decide) (by decide)).1,
   ((halfopen_success_updates cbHalfW 6 6 ()
      (by decide) (by decide)).2.2.2.1).mpr (by decide)⟩

/-! ### C7: Half-Open probe-capacity admission -/

/-- C7: While Half-Open with `halfOpenRequests` already at `maxRequests`,
`Execute` leaves the breaker untouched and returns the distinct half-open
rejection error without invoking the wrapped operation (the result is the
same for every `fnResult`); with a free slot the gate increments
`halfOpenRequests` and the call is admitted.  The two rejection error
strings are distinct. -/
theorem halfopen_capacity_gate {ρ ε : Type} (cb : circuitBreaker)
    (tAdmit tRecord : Nat)
    (hs : cb.state = State.StateHalfOpen) :
    (cb.halfOpenRequests = cb.settings.maxRequests →
      ∀ fnResult : ρ × Option ε,
        Execute cb tAdmit tRecord fnResult =
          (cb, ExecResult.rejectedHalfOpen, [])) ∧
    (cb.halfOpenRequests < cb.settings.maxRequests →
      (gatePhase cb tAdmit).1.halfOpenRequests = cb.halfOpenRequests + 1 ∧
      (gatePhase cb tAdmit).2.1 = Decision.allowed ∧
      ∀ (r : ρ) (e : Option ε),
        (Execute cb tAdmit tRecord (r, e)).2.1 = ExecResult.completed r e) ∧
    rejectionMessage (ExecResult.rejectedHalfOpen : ExecResult ρ ε) ≠
      rejectionMessage (ExecResult.rejectedOpen : ExecResult ρ ε) := by
  refine ⟨?_, ?_, by simp [rejectionMessage]⟩
  · intro hfull fnResult
    have hge : cb.settings.maxRequests ≤ cb.halfOpenRequests := le_of_eq hfull.symm
    simp [Execute, gatePhase, checkCooldown, admission, hs, hge]
  · intro hcap
    have hnot : ¬ (cb.settings.maxRequests ≤ cb.halfOpenRequests) := by omega
    refine ⟨?_, ?_, fun r e => ?_⟩ <;>
      simp [Execute, gatePhase, checkCooldown, admission, hs, hnot]

/-- Witness for C7: a saturated concrete Half-Open breaker
(`halfOpenRequests = maxRequests = 1`) rejects, and `cbHalfW` (free slot)
admits. -/
theorem halfopen_capacity_gate_witness :
    Execute { cbHalfW with halfOpenRequests := 1 } 6 6
        (((), none) : Unit × Option Nat) =
      ({ cbHalfW with halfOpenRequests := 1 },
        ExecResult.rejectedHalfOpen, []) ∧
    (gatePhase cbHalfW 6).1.halfOpenRequests = 1 :=
  ⟨(halfopen_capacity_gate { cbHalfW with halfOpenRequests := 1 } 6 6
      (by decide)).1 (by decide) ((), none),
   ((halfopen_capacity_gate (ρ := Unit) (ε := Nat) cbHalfW 6 6
      (by decide)).2.1 (by decide)).1⟩

/-! ### C8: Reset -/

/-- C8: `Reset` forces the breaker to Closed, zeroes `failureCount`,
`successCount`, `halfOpenRequests` and `openedAt` (keeping the settings),
and fires the callback exactly when the mode actually changed, with the
old mode as the `from` component. -/
theorem reset_forces_closed (cb : circuitBreaker) :
    (Reset cb).1 =
      { state := State.StateClosed, failureCount := 0, successCount := 0,
        halfOpenRequests := 0, openedAt := 0, settings := cb.settings } ∧
    ((Reset cb).2 = [] ↔ cb.state = State.StateClosed) ∧
    (cb.state ≠ State.StateClosed →
      (Reset cb).2 = [(cb.state, State.StateClosed)]) := by
  by_cases h : cb.state = State.StateClosed <;>
    simp [Reset, setState, h]

/-- Witness for C8 at a concrete Open breaker (mode changes, so the
callback fires once). -/
theorem reset_forces_closed_witness :
    (Reset cbOpenW).1 =
      { state := State.StateClosed, failureCount := 0, successCount := 0,
        halfOpenRequests := 0, openedAt := 0, settings := W1 } ∧
    (Reset cbOpenW).2 = [(State.StateOpen, State.StateClosed)] := by
  refine ⟨(reset_forces_closed cbOpenW).1.trans (by decide), ?_⟩
  have h := (reset_forces_closed cbOpenW).2.2 (by decide)
  exact h.trans (by decide)

/-! ### Reachability helpers shared by the invariant claims -/

/-- One `Execute` call is a composition of at most two `Step`s (its gate
phase, then — when admitted — its recording phase). -/
lemma execute_steps {ρ ε : Type} (cb : circuitBreaker) (tAdmit tRecord : Nat)
    (fnResult : ρ × Option ε) :
    Relation.ReflTransGen Step cb (Execute cb tAdmit tRecord fnResult).1 := by
  have hg : Relation.ReflTransGen Step cb (gatePhase cb tAdmit).1 :=
    Relation.ReflTransGen.single (Step.gateStep cb tAdmit)
  rcases hd : (gatePhase cb tAdmit).2.1 with _ | _ | _ <;>
    simp only [Execute, hd]
  · exact hg
  · exact hg
  · exact Relation.ReflTransGen.tail hg
      (Step.recordStep (gatePhase cb tAdmit).1 (gatePhase cb tAdmit).1.state
        fnResult.2.isSome tRecord)

/-- Reachability is preserved by a full `Execute` call. -/
lemma reachable_execute {ρ ε : Type} (S : Settings) (cb : circuitBreaker)
    (h : Reachable S cb) (tAdmit tRecord : Nat) (fnResult : ρ × Option ε) :
    Reachable S (Execute cb tAdmit tRecord fnResult).1 :=
  Relation.ReflTransGen.trans h (execute_steps cb tAdmit tRecord fnResult)

/-- The probe-capacity bound: whenever the mode is Half-Open, at most
`maxRequests` admissions are outstanding. -/
def CapacityInv (cb : circuitBreaker) : Prop :=
  cb.state = State.StateHalfOpen →
    cb.halfOpenRequests ≤ cb.settings.maxRequests

lemma capacityInv_checkCooldown (cb : circuitBreaker) (t : Nat)
    (h : CapacityInv cb) : CapacityInv (checkCooldown cb t).1 := by
  unfold CapacityInv checkCooldown setState at *
  by_cases hc : cb.state = State.StateOpen ∧
      cb.openedAt + cb.settings.timeout ≤ t
  · simp [hc, hc.1]
  · simpa [hc] using h

lemma capacityInv_admission (cb : circuitBreaker)
    (h : CapacityInv cb) : CapacityInv (admission cb).1 := by
  unfold CapacityInv admission at *
  rcases hst : cb.state with _ | _ | _ <;> simp [hst]
  by_cases hcap : cb.settings.maxRequests ≤ cb.halfOpenRequests
  · simpa [hcap, hst] using h
  · simp [hcap]
    omega

lemma capacityInv_record (cb : circuitBreaker) (captured : State)
    (err : Bool) (t : Nat) (h : CapacityInv cb) :
    CapacityInv (recordOutcome cb captured err t).1 := by
  unfold CapacityInv recordOutcome setState at *
  rcases err with _ | _
  · by_cases hcap : captured = State.StateHalfOpen
    · simp [hcap]
      by_cases hth : cb.settings.successThreshold ≤ cb.successCount + 1 <;>
        simp [hth]
      by_cases hcl : cb.state = State.StateClosed <;> simp [hcl]
    · simpa [hcap] using h
  · by_cases hopen : captured = State.StateHalfOpen ∨
        cb.settings.failureThreshold ≤ cb.failureCount + 1
    · by_cases hcl : cb.state = State.StateOpen <;> simp [hopen, hcl]
    · simpa [hopen] using h

lemma capacityInv_reset (cb : circuitBreaker) :
    CapacityInv (Reset cb).1 := by
  unfold CapacityInv Reset setState
  by_cases hcl : cb.state = State.StateClosed <;> simp [hcl]

lemma capacityInv_reachable (S : Settings) (cb : circuitBreaker)
    (h : Reachable S cb) : CapacityInv cb := by
  induction h with
  | refl => intro hfalse; simp [New] at hfalse
  | tail _ hstep ih =>
      cases hstep with
      | gateStep t =>
          exact capacityInv_admission _ (capacityInv_checkCooldown _ t ih)
      | recordStep captured err t =>
          exact capacityInv_record _ captured err t ih
      | resetStep => exact capacityInv_reset _

/-! ### C3: probe capacity (corrected) -/

/-- Open breaker whose admitted Half-Open probe failed: the Go code
transitions back to Open without touching `halfOpenRequests`. -/
def cbProbeFail : circuitBreaker :=
  (Execute cbOpenW 5 5 ((), (some 0 : Option Nat))).1

/-- Counterexample to C3 as stated: after the admitted probe of a
Half-Open breaker fails, the breaker has left Half-Open (it is Open
again) yet `halfOpenRequests` is still 1, not 0 — the code zeroes the
probe count on *entering* Half-Open (and when a probe succeeds, and on
`Reset`), but not on leaving Half-Open through a probe failure.  The
state is reached from `New W1` by two `Execute` calls. -/
theorem leaving_halfopen_keeps_probe_count :
    cbProbeFail.state = State.StateOpen ∧
    cbProbeFail.halfOpenRequests = 1 ∧
    Reachable W1 cbProbeFail :=
  ⟨by decide, by decide,
    reachable_execute W1 cbOpenW
      (reachable_execute W1 (New W1) Relation.ReflTransGen.refl 0 0
        ((), some 0)) 5 5 ((), (some 0 : Option Nat))⟩

/-- C3 (amended): across every breaker reachable by the public
operations, `halfOpenRequests ≤ maxRequests` holds whenever the mode is
Half-Open; the count is forced to 0 at the moment the breaker enters
Half-Open, when an admitted Half-Open probe succeeds, and by `Reset` —
but leaving Half-Open through a probe *failure* (back to Open) leaves
`halfOpenRequests` unchanged; it is only zeroed again on the next
Half-Open entry. -/
theorem probe_count_discipline (S : Settings) (cb cb2 : circuitBreaker)
    (t : Nat) :
    (Reachable S cb → cb.state = State.StateHalfOpen →
      cb.halfOpenRequests ≤ cb.settings.maxRequests) ∧
    (cb2.state = State.StateOpen → cb2.openedAt + cb2.settings.timeout ≤ t →
      (checkCooldown cb2 t).1.state = State.StateHalfOpen ∧
      (checkCooldown cb2 t).1.halfOpenRequests = 0) ∧
    (recordOutcome cb2 State.StateHalfOpen false t).1.halfOpenRequests = 0 ∧
    (Reset cb2).1.halfOpenRequests = 0 ∧
    (cb2.state = State.StateHalfOpen →
      (recordOutcome cb2 State.StateHalfOpen true t).1.state =
        State.StateOpen ∧
      (recordOutcome cb2 State.StateHalfOpen true t).1.halfOpenRequests =
        cb2.halfOpenRequests) := by
  refine ⟨fun h hs => capacityInv_reachable S cb h hs, ?_, ?_, ?_, ?_⟩
  · intro hs ht
    constructor <;> simp [checkCooldown, setState, hs, ht]
  · by_cases hth : cb2.settings.successThreshold ≤ cb2.successCount + 1 <;>
      simp [recordOutcome, setState, hth] <;> split <;> simp
  · by_cases hcl : cb2.state = State.StateClosed <;> simp [Reset, setState, hcl]
  · intro hs
    constructor <;> simp [recordOutcome, setState, hs]

/-- Witness for C3 (amended) at concrete breakers. -/
theorem probe_count_discipline_witness :
    cbHalfW.halfOpenRequests ≤ cbHalfW.settings.maxRequests ∧
    (checkCooldown cbOpenW 5).1.state = State.StateHalfOpen ∧
    (checkCooldown cbOpenW 5).1.halfOpenRequests = 0 ∧
    (recordOutcome cbHalfW State.StateHalfOpen true 9).1.halfOpenRequests =
      cbHalfW.halfOpenRequests :=
  ⟨(probe_count_discipline W1 cbHalfW cbHalfW 9).1
      (reachable_execute W1 cbOpenW
        (reachable_execute W1 (New W1) Relation.ReflTransGen.refl 0 0
          ((), some 0)) 5 5 ((), (none : Option Nat))) (by decide),
   ((probe_count_discipline W1 cbHalfW cbOpenW 5).2.1 (by decide)
      (by decide)).1,
   ((probe_count_discipline W1 cbHalfW cbOpenW 5).2.1 (by decide)
      (by decide)).2,
   ((probe_count_discipline W1 cbHalfW cbHalfW 9).2.2.2.2 (by decide)).2⟩

/-! ### C10: the two streak counters are never both nonzero -/

/-- At most one of the two streak counters is nonzero. -/
def StreakInv (cb : circuitBreaker) : Prop :=
  cb.failureCount = 0 ∨ cb.successCount = 0

lemma streakInv_checkCooldown (cb : circuitBreaker) (t : Nat)
    (h : StreakInv cb) : StreakInv (checkCooldown cb t).1 := by
  unfold StreakInv checkCooldown setState at *
  by_cases hc : cb.state = State.StateOpen ∧
      cb.openedAt + cb.settings.timeout ≤ t
  · simp [hc]
  · simpa [hc] using h

lemma streakInv_admission (cb : circuitBreaker)
    (h : StreakInv cb) : StreakInv (admission cb).1 := by
  unfold StreakInv admission at *
  rcases hst : cb.state with _ | _ | _ <;> simp [hst]
  · exact h
  · exact h
  · by_cases hcap : cb.settings.maxRequests ≤ cb.halfOpenRequests <;>
      simpa [hcap] using h

lemma streakInv_record (cb : circuitBreaker) (captured : State)
    (err : Bool) (t : Nat) : StreakInv (recordOutcome cb captured err t).1 := by
  unfold StreakInv recordOutcome setState
  rcases err with _ | _
  · by_cases hcap : captured = State.StateHalfOpen
    · by_cases hth : cb.settings.successThreshold ≤ cb.successCount + 1 <;>
        simp [hcap, hth] <;> split <;> simp
    · simp [hcap]
  · by_cases hopen : captured = State.StateHalfOpen ∨
        cb.settings.failureThreshold ≤ cb.failureCount + 1
    · by_cases hcl : cb.state = State.StateOpen <;> simp [hopen, hcl]
    · simp [hopen]

lemma streakInv_reset (cb : circuitBreaker) : StreakInv (Reset cb).1 := by
  unfold StreakInv Reset setState
  by_cases hcl : cb.state = State.StateClosed <;> simp [hcl]

/-- C10: every breaker reachable from `New` through the public mutators
has `failureCount = 0` or `successCount = 0` — each recorded failure
zeroes the success streak and each recorded success zeroes the failure
streak, both start at zero, and `Reset` rezeroes both. -/
theorem streak_mutual_exclusion (S : Settings) (cb : circuitBreaker)
    (h : Reachable S cb) :
    cb.failureCount = 0 ∨ cb.successCount = 0 := by
  induction h with
  | refl => exact Or.inl rfl
  | tail _ hstep ih =>
      cases hstep with
      | gateStep t =>
          exact streakInv_admission _ (streakInv_checkCooldown _ t ih)
      | recordStep captured err t => exact streakInv_record _ captured err t
      | resetStep => exact streakInv_reset _

/-- Witness for C10 at a concrete reachable breaker. -/
theorem streak_mutual_exclusion_witness :
    cbHalfW.failureCount = 0 ∨ cbHalfW.successCount = 0 :=
  streak_mutual_exclusion W1 cbHalfW
    (reachable_execute W1 cbOpenW
      (reachable_execute W1 (New W1) Relation.ReflTransGen.refl 0 0
        ((), some 0)) 5 5 ((), (none : Option Nat)))

/-! ### C9: successCount outside Half-Open (corrected) -/

/-- One successful call on a fresh (Closed) breaker. -/
def cbClosedSucc : circuitBreaker :=
  (Execute (New W1) 0 0 ((), (none : Option Nat))).1

/-- Counterexample to C9 as stated: the Go code increments
`successCount` on *every* success, whatever the captured mode, so after
one successful call in Closed mode `Counts()` reports
`successes = 1`, not 0, while the breaker still operates Closed. -/
theorem closed_success_counts_counterexample :
    StateQuery cbClosedSucc = State.StateClosed ∧
    Counts cbClosedSucc = (0, 1) := by
  exact ⟨by decide, by decide⟩

/-- C9 (amended): a success recorded with captured mode Closed keeps the
breaker Closed but still increments `successCount`, so `Counts()`
reports a nonzero success streak in Closed mode; the counter is zeroed
by every recorded failure and on entering Half-Open, so accumulation
outside Half-Open never reaches the close-decision. -/
theorem success_streak_outside_halfopen {ρ ε : Type} (cb : circuitBreaker)
    (tAdmit tRecord : Nat) (r : ρ)
    (hs : cb.state = State.StateClosed) :
    (Execute cb tAdmit tRecord (r, (none : Option ε))).1.state =
      State.StateClosed ∧
    Counts (Execute cb tAdmit tRecord (r, (none : Option ε))).1 =
      (0, cb.successCount + 1) ∧
    (∀ (captured : State) (t : Nat),
      (recordOutcome cb captured true t).1.successCount = 0) ∧
    (∀ (cb2 : circuitBreaker) (t : Nat), cb2.state = State.StateOpen →
      cb2.openedAt + cb2.settings.timeout ≤ t →
      (checkCooldown cb2 t).1.successCount = 0) := by
  refine ⟨?_, ?_, ?_, ?_⟩
  · simp [Execute, gatePhase, checkCooldown, admission, recordOutcome,
          setState, hs]
  · simp [Execute, gatePhase, checkCooldown, admission, recordOutcome,
          setState, Counts, hs]
  · intro captured t
    by_cases hopen : captured = State.StateHalfOpen ∨
        cb.settings.failureThreshold ≤ cb.failureCount + 1
    · by_cases hcl : cb.state = State.StateOpen <;>
        simp [recordOutcome, setState, hopen, hcl]
    · simp [recordOutcome, hopen]
  · intro cb2 t hs2 ht2
    simp [checkCooldown, setState, hs2, ht2]

/-- Witness for C9 (amended) at a fresh breaker. -/
theorem success_streak_outside_halfopen_witness :
    (Execute (New W1) 0 0 (((), none) : Unit × Option Nat)).1.state =
      State.StateClosed ∧
    Counts (Execute (New W1) 0 0 (((), none) : Unit × Option Nat)).1 =
      (0, 1) :=
  ⟨(success_streak_outside_halfopen (New W1) 0 0 () (by decide)).1,
   (success_streak_outside_halfopen (New W1) 0 0 () (by decide)).2.1⟩

/-! ### C1: the Closed-mode failure streak opens the breaker exactly once -/

/-- While Open with `openedAt = t` and a positive cooldown, further
failing calls at instant `t` are all rejected and change nothing. -/
lemma runFailures_open {ε : Type} (t : Nat) (errs : List ε)
    (cb : circuitBreaker)
    (hs : cb.state = State.StateOpen) (ho : cb.openedAt = t)
    (hT : 0 < cb.settings.timeout) :
    runFailures t cb errs = (cb, []) := by
  induction errs with
  | nil => rfl
  | cons e es ih =>
      have hnot : ¬ (cb.openedAt + cb.settings.timeout ≤ t) := by omega
      have hstep : Execute cb t t ((), some e) =
          (cb, ExecResult.rejectedOpen, []) := by
        simp [Execute, gatePhase, checkCooldown, admission, hs, hnot]
      simp [runFailures, hstep, ih]

/-- One failing call from a Closed breaker: the streak grows by one and
the breaker opens exactly when the grown streak reaches the threshold. -/
lemma execute_closed_failure {ε : Type} (cb : circuitBreaker) (t : Nat)
    (e : ε) (hs : cb.state = State.StateClosed) :
    Execute cb t t ((), some e) =
      (if cb.settings.failureThreshold ≤ cb.failureCount + 1 then
        ({ cb with state := State.StateOpen,
                   failureCount := cb.failureCount + 1,
                   successCount := 0, openedAt := t },
         ExecResult.completed () (some e),
         [(State.StateClosed, State.StateOpen)])
      else
        ({ cb with failureCount := cb.failureCount + 1, successCount := 0 },
         ExecResult.completed () (some e), [])) := by
  by_cases hth : cb.settings.failureThreshold ≤ cb.failureCount + 1 <;>
    simp [Execute, gatePhase, checkCooldown, admission, recordOutcome,
          setState, hs, hth]

/-- Running a list of failing calls from Closed mode with a streak still
below the threshold: as long as the streak stays below the threshold the
calls only grow `failureCount`; once the streak reaches the threshold the
breaker is Open with `openedAt = t`, and the whole run fired exactly one
callback, `(Closed, Open)`. -/
lemma runFailures_closed {ε : Type} (S : Settings) (t : Nat)
    (hk : 0 < S.failureThreshold) (hT : 0 < S.timeout) :
    ∀ (errs : List ε) (cb : circuitBreaker),
      cb.state = State.StateClosed → cb.settings = S →
      cb.successCount = 0 → cb.failureCount < S.failureThreshold →
      (cb.failureCount + errs.length < S.failureThreshold →
        runFailures t cb errs =
          ({ cb with failureCount := cb.failureCount + errs.length }, [])) ∧
      (S.failureThreshold ≤ cb.failureCount + errs.length →
        (runFailures t cb errs).1.state = State.StateOpen ∧
        (runFailures t cb errs).1.openedAt = t ∧
        (runFailures t cb errs).2 =
          [(State.StateClosed, State.StateOpen)]) := by
  intro errs
  induction errs with
  | nil =>
      intro cb hs hset hsc hlt
      constructor
      · intro _
        simp [runFailures]
      · intro habs
        simp at habs
        omega
  | cons e es ih =>
      intro cb hs hset hsc hlt
      obtain ⟨st, fc, sc, hor, oa, se⟩ := cb
      simp only at hs hset hsc hlt
      subst hs hset hsc
      have hstep := execute_closed_failure
        (⟨State.StateClosed, fc, 0, hor, oa, se⟩ : circuitBreaker) t e rfl
      by_cases hth : se.failureThreshold ≤ fc + 1
      · rw [if_pos hth] at hstep
        have hrest : runFailures t
            (⟨State.StateOpen, fc + 1, 0, hor, t, se⟩ : circuitBreaker) es =
            (⟨State.StateOpen, fc + 1, 0, hor, t, se⟩, []) :=
          runFailures_open t es _ rfl rfl hT
        constructor
        · intro habs
          simp at habs
          omega
        · intro _
          simp [runFailures, hstep, hrest]
      · rw [if_neg hth] at hstep
        have h2 := ih (⟨State.StateClosed, fc + 1, 0, hor, oa, se⟩ :
          circuitBreaker) rfl rfl rfl (Nat.not_le.mp hth)
        constructor
        · intro hbelow
          simp at hbelow
          have h3 := h2.1 (by simp; omega)
          simp [runFailures, hstep, h3]
          omega
        · intro hreach
          simp at hreach
          have h3 := h2.2 (by simp; omega)
          simp [runFailures, hstep]
          exact h3

/-- C1: from a fresh Closed breaker, a run of `N` consecutive `Execute`
calls whose wrapped operation returns a non-nil error (of any content and
any error type `ε`), all at instant `t` with a positive cooldown:
while `N` is below `failureThreshold` the breaker stays Closed with
`failureCount = N` and no callback fires; as soon as the run reaches
`failureThreshold` the breaker is Open with `openedAt = t` and the whole
run has fired exactly one callback, `(Closed, Open)` — the transition
happened at the call where the streak first reached the threshold, since
every strictly shorter run had fired none. -/
theorem closed_failure_streak_opens_once {ε : Type} (S : Settings)
    (t : Nat) (errs : List ε)
    (hk : 0 < S.failureThreshold) (hT : 0 < S.timeout) :
    (errs.length < S.failureThreshold →
      (runFailures t (New S) errs).1.state = State.StateClosed ∧
      (runFailures t (New S) errs).1.failureCount = errs.length ∧
      (runFailures t (New S) errs).2 = []) ∧
    (S.failureThreshold ≤ errs.length →
      (runFailures t (New S) errs).1.state = State.StateOpen ∧
      (runFailures t (New S) errs).1.openedAt = t ∧
      (runFailures t (New S) errs).2 =
        [(State.StateClosed, State.StateOpen)]) := by
  have h := runFailures_closed S t hk hT errs (New S) rfl rfl rfl
    (by simpa [New] using hk)
  constructor
  · intro hlt
    have h1 := h.1 (by simpa [New] using hlt)
    rw [h1]
    simp [New]
  · intro hge
    exact h.2 (by simpa [New] using hge)

/-- Witness for C1: `failureThreshold = 2`, three failing calls — the
breaker is Open, `openedAt` is stamped, and exactly one callback fired. -/
theorem closed_failure_streak_opens_once_witness :
    (runFailures 3 (New ⟨2, 1, 7, 1⟩) ([9, 9, 9] : List Nat)).1.state =
      State.StateOpen ∧
    (runFailures 3 (New ⟨2, 1, 7, 1⟩) ([9, 9, 9] : List Nat)).1.openedAt = 3 ∧
    (runFailures 3 (New ⟨2, 1, 7, 1⟩) ([9, 9, 9] : List Nat)).2 =
      [(State.StateClosed, State.StateOpen)] :=
  (closed_failure_streak_opens_once ⟨2, 1, 7, 1⟩ 3 [9, 9, 9]
    (by decide) (by decide)).2 (by decide)

end CircuitBreaker
